import Mathlib

/-
Verification of the aleo-GUI-wallet core against its specification.

The Python source is shallowly embedded: dict-shaped records become
structures, in-place mutation becomes explicit state passing, Python
float amounts are modelled as exact rationals, raised exceptions become
Except / Option results, and wall-clock reads (time.time()) become an
explicit `now : Nat` argument.  Library primitives from outside the
repository (hashlib.sha256, PBKDF2HMAC, Fernet, base64) are modelled as
executable pure functions; base64 is implemented faithfully, while the
digest functions are deterministic stand-ins since no verified claim
depends on the actual digest values.
-/

/-- List update at an index, mirroring the in-place item assignment
used by the Python source on account lists. -/
def listModify : List α → Nat → (α → α) → List α
  | [], _, _ => []
  | x :: xs, 0, f => f x :: xs
  | x :: xs, n + 1, f => x :: listModify xs n f

/-- Contact record, from wallet_core.py account dicts. -/
structure Contact where
  name : String := ""
  address : String := ""
  description : String := ""
deriving DecidableEq

/-- Transaction record, from the dicts built in transaction_manager.py
and blockchain_integration.py.  Amounts and fees are Python floats in
the source, modelled as exact rationals. -/
structure Transaction where
  type : String
  sender : String := ""
  recipient : String := ""
  amount : ℚ
  fee : ℚ := 0
  memo : String := ""
  timestamp : Nat := 0
  status : String
  transaction_id : String := ""
  block_height : Nat := 0
  signature : String := ""
deriving DecidableEq

/-- Account record, from wallet_core.py. -/
structure Account where
  name : String := ""
  private_key : String := ""
  view_key : String := ""
  address : String := ""
  created_at : Nat := 0
  balance : ℚ := 0
  transactions : List Transaction := []
  contacts : List Contact := []
deriving DecidableEq

/-- Key derived by PBKDF2HMAC from a password and salt
(wallet_core.py encrypt_wallet / decrypt_wallet).  The derivation is
library code outside the repository; it is modelled as an injective
pairing, an idealisation stating that distinct passwords yield distinct
keys (PBKDF2 collisions being computationally negligible). -/
structure FernetKey where
  password : String
  salt : List Nat
deriving DecidableEq

/-- The JSON document written by wallet_core.py save_wallet:
json.dumps of accounts plus a version string.  json.dumps / json.loads
are modelled as the identity on this structured value. -/
structure WalletData where
  accounts : List Account
  version : String
deriving DecidableEq

/-- A Fernet token.  Fernet (library code) is authenticated encryption:
decryption with the wrong key always fails.  It is modelled as the
ideal authenticated cipher: a token remembers the key it was built with
and only that key opens it. -/
structure FernetToken where
  key : FernetKey
  plaintextData : WalletData
deriving DecidableEq

/-- The persisted wallet file: either plain JSON, or 16 bytes of salt
followed by the Fernet token (wallet_core.py save_wallet). -/
inductive VaultFile where
  | plainFile (data : WalletData)
  | encFile (salt : List Nat) (token : FernetToken)
deriving DecidableEq

/-- PBKDF2HMAC(SHA256, 32, salt, 100000) followed by urlsafe base64,
as used for wallet encryption; see FernetKey for the idealisation. -/
def derive_key (password : String) (salt : List Nat) : FernetKey :=
  { password := password, salt := salt }

/-- Fernet(key).encrypt(plaintext). -/
def fernetEncrypt (key : FernetKey) (data : WalletData) : FernetToken :=
  { key := key, plaintextData := data }

/-- Fernet(key).decrypt(token): succeeds exactly when the key matches
(the HMAC check of real Fernet), raising InvalidToken otherwise. -/
def fernetDecrypt (key : FernetKey) (token : FernetToken) : Option WalletData :=
  if token.key = key then some token.plaintextData else none

/-- Wallet state, from AleoWalletCore.__init__. -/
structure AleoWalletCore where
  accounts : List Account := []
  is_encrypted : Bool := false
  encryption_key : Option FernetKey := none
  salt : List Nat := []
deriving DecidableEq

/-- Placeholder account used only as the default of total list reads;
every guarded access stays inside the list, so it is never observed. -/
def dummyAccount : Account := {}

/-- The account stored at a (known in-range) position. -/
def accountAtD (w : AleoWalletCore) (n : Nat) : Account :=
  w.accounts.getD n dummyAccount

/-- str.startswith, on the character lists underlying Lean strings. -/
def strStartsWith (s p : String) : Bool :=
  decide (s.toList.take p.toList.length = p.toList)

/-- AleoWalletCore.get_account: index guard then list read. -/
def AleoWalletCore.get_account (w : AleoWalletCore) (index : Int) : Option Account :=
  if 0 ≤ index ∧ index < (w.accounts.length : Int) then
    some (accountAtD w index.toNat)
  else none

/-- AleoWalletCore.get_balance. -/
def AleoWalletCore.get_balance (w : AleoWalletCore) (account_index : Int) : ℚ :=
  if 0 ≤ account_index ∧ account_index < (w.accounts.length : Int) then
    (accountAtD w account_index.toNat).balance
  else 0

/-- AleoWalletCore.get_transactions: filter by type, then truncate. -/
def AleoWalletCore.get_transactions (w : AleoWalletCore) (account_index : Int)
    (limit : Option Nat) (filter_type : Option String) : List Transaction :=
  if 0 ≤ account_index ∧ account_index < (w.accounts.length : Int) then
    let transactions := (accountAtD w account_index.toNat).transactions
    let transactions := match filter_type with
      | some ft => transactions.filter (fun tx => tx.type = ft)
      | none => transactions
    match limit with
    | some n => transactions.take n
    | none => transactions
  else []

/-- AleoWalletCore.get_contacts. -/
def AleoWalletCore.get_contacts (w : AleoWalletCore) (account_index : Int) : List Contact :=
  if 0 ≤ account_index ∧ account_index < (w.accounts.length : Int) then
    (accountAtD w account_index.toNat).contacts
  else []

/-- The update dict passed to AleoWalletCore.update_account; only the
fields the GUI actually sends are represented. -/
structure AccountUpdates where
  name : Option String := none
  balance : Option ℚ := none
  private_key : Option String := none
  address : Option String := none
deriving DecidableEq

/-- The source filters the keys private_key and address out of the
update dict before applying it, so only name and balance land. -/
def applyUpdates (a : Account) (u : AccountUpdates) : Account :=
  let a1 := match u.name with
    | some v => { a with name := v }
    | none => a
  match u.balance with
  | some v => { a1 with balance := v }
  | none => a1

/-- AleoWalletCore.update_account. -/
def AleoWalletCore.update_account (w : AleoWalletCore) (index : Int)
    (updates : AccountUpdates) : Bool × AleoWalletCore :=
  if 0 ≤ index ∧ index < (w.accounts.length : Int) then
    (true, { w with accounts := listModify w.accounts index.toNat (fun a => applyUpdates a updates) })
  else (false, w)

/-- AleoWalletCore.delete_account. -/
def AleoWalletCore.delete_account (w : AleoWalletCore) (index : Int) : Bool × AleoWalletCore :=
  if 0 ≤ index ∧ index < (w.accounts.length : Int) then
    (true, { w with accounts := w.accounts.eraseIdx index.toNat })
  else (false, w)

/-- The in-range body of AleoWalletCore.add_transaction: the
transaction is inserted at position 0 of the history and the balance is
adjusted by its amount (plus fee when sent) with no look at its status
and no check of its transaction_id. -/
def applyTxToAccount (a : Account) (t : Transaction) : Account :=
  let a1 := { a with transactions := t :: a.transactions }
  if t.type = "Sent" then
    { a1 with balance := a1.balance - (t.amount + t.fee) }
  else if t.type = "Received" then
    { a1 with balance := a1.balance + t.amount }
  else a1

/-- AleoWalletCore.add_transaction. -/
def AleoWalletCore.add_transaction (w : AleoWalletCore) (account_index : Int)
    (transaction : Transaction) : Bool × AleoWalletCore :=
  if 0 ≤ account_index ∧ account_index < (w.accounts.length : Int) then
    (true, { w with accounts := listModify w.accounts account_index.toNat (fun a => applyTxToAccount a transaction) })
  else (false, w)

/-- AleoWalletCore.add_contact. -/
def AleoWalletCore.add_contact (w : AleoWalletCore) (account_index : Int)
    (contact : Contact) : Bool × AleoWalletCore :=
  if 0 ≤ account_index ∧ account_index < (w.accounts.length : Int) then
    if strStartsWith contact.address "aleo1" = false then (false, w)
    else
      (true, { w with accounts := listModify w.accounts account_index.toNat (fun a => { a with contacts := a.contacts ++ [contact] }) })
  else (false, w)

/-- AleoWalletCore.remove_contact. -/
def AleoWalletCore.remove_contact (w : AleoWalletCore) (account_index : Int)
    (contact_index : Int) : Bool × AleoWalletCore :=
  if 0 ≤ account_index ∧ account_index < (w.accounts.length : Int) then
    let contacts := (accountAtD w account_index.toNat).contacts
    if 0 ≤ contact_index ∧ contact_index < (contacts.length : Int) then
      (true, { w with accounts := listModify w.accounts account_index.toNat (fun a => { a with contacts := a.contacts.eraseIdx contact_index.toNat }) })
    else (false, w)
  else (false, w)

/-- AleoWalletCore.validate_address: aleo1 marker and minimum length. -/
def AleoWalletCore.validate_address (address : String) : Bool :=
  strStartsWith address "aleo1" && decide (60 ≤ address.length)

/-- AleoWalletCore.encrypt_wallet: derives the Fernet key from the
password and a fresh salt (os.urandom is modelled by passing the salt
in) and marks the wallet encrypted; the subsequent save is save_wallet. -/
def AleoWalletCore.encrypt_wallet (w : AleoWalletCore) (password : String)
    (salt : List Nat) : AleoWalletCore :=
  { w with encryption_key := some (derive_key password salt),
           salt := salt, is_encrypted := true }

/-- AleoWalletCore.save_wallet: serialize the accounts; when encryption
is on, write salt followed by the Fernet token, else plain JSON. -/
def AleoWalletCore.save_wallet (w : AleoWalletCore) : VaultFile :=
  let wallet_data : WalletData := { accounts := w.accounts, version := "1.0" }
  match w.is_encrypted, w.encryption_key with
  | true, some key => VaultFile.encFile w.salt (fernetEncrypt key wallet_data)
  | _, _ => VaultFile.plainFile wallet_data

/-- AleoWalletCore.decrypt_wallet: split off the 16-byte salt, derive
the key from the given password, Fernet-decrypt; any failure is caught
and reported as False with the in-memory state untouched.  A plain file
fails because Fernet rejects non-token bytes. -/
def AleoWalletCore.decrypt_wallet (w : AleoWalletCore) (file : VaultFile)
    (password : String) : Bool × AleoWalletCore :=
  match file with
  | VaultFile.encFile salt token =>
    let key := derive_key password salt
    match fernetDecrypt key token with
    | some wallet_data =>
      (true, { w with accounts := wallet_data.accounts,
                      encryption_key := some key, salt := salt,
                      is_encrypted := true })
    | none => (false, w)
  | VaultFile.plainFile _ => (false, w)

/-- Fee settings from TransactionManager.__init__: default 0.001,
minimum 0.0001, per byte 0.00001 ALEO. -/
def TransactionManager.default_fee : ℚ := 1 / 1000

/-- Minimum fee, 0.0001 ALEO. -/
def TransactionManager.min_fee : ℚ := 1 / 10000

/-- Fee per memo byte, 0.00001 ALEO. -/
def TransactionManager.fee_per_byte : ℚ := 1 / 100000

/-- TransactionManager.calculate_fee: base fee, plus a per-byte memo
surcharge when the memo is non-empty, floored at the minimum fee.  The
amount parameter is accepted but unused, exactly as in the source. -/
def TransactionManager.calculate_fee (amount : ℚ) (memo : String) : ℚ :=
  let fee := TransactionManager.default_fee
  let fee := if memo ≠ "" then fee + (memo.length : ℚ) * TransactionManager.fee_per_byte else fee
  max fee TransactionManager.min_fee

/-- The ValueError exits of TransactionManager.create_transaction and
sign_transaction, by raise site. -/
inductive TxError where
  | amountNotPositive
  | invalidRecipient
  | accountNotFound
  | insufficientBalance
deriving DecidableEq

/-- TransactionManager.create_transaction: validate the amount, the
recipient address, account existence and the balance, then build the
Pending transaction object.  It performs no mutation of any account
state and takes no lock; the balance is only read. -/
def TransactionManager.create_transaction (w : AleoWalletCore) (account_index : Int)
    (recipient_address : String) (amount : ℚ) (memo : String) (now : Nat) :
    Except TxError Transaction :=
  if amount ≤ 0 then Except.error TxError.amountNotPositive
  else if AleoWalletCore.validate_address recipient_address = false then
    Except.error TxError.invalidRecipient
  else
    match w.get_account account_index with
    | none => Except.error TxError.accountNotFound
    | some account =>
      let balance := w.get_balance account_index
      let fee := TransactionManager.calculate_fee amount memo
      if balance < amount + fee then Except.error TxError.insufficientBalance
      else Except.ok
        { type := "Sent", sender := account.address, recipient := recipient_address,
          amount := amount, fee := fee, memo := memo, timestamp := now,
          status := "Pending", transaction_id := "", block_height := 0 }

/-- TransactionManager.sign_transaction: account lookup, then a
placeholder signature field is added. -/
def TransactionManager.sign_transaction (w : AleoWalletCore) (account_index : Int)
    (transaction : Transaction) (now : Nat) : Except TxError Transaction :=
  match w.get_account account_index with
  | none => Except.error TxError.accountNotFound
  | some _ => Except.ok { transaction with signature := "sig_" ++ toString now }

/-- TransactionManager.broadcast_transaction: stamp a transaction id
and record the transaction in the account history (this is the first
point where the balance is debited).  The background status-monitoring
thread it spawns is asynchronous and is not part of this step. -/
def TransactionManager.broadcast_transaction (w : AleoWalletCore) (account_index : Int)
    (transaction : Transaction) (now : Nat) : String × AleoWalletCore :=
  let transaction_id := "at" ++ toString now
  let transaction := { transaction with transaction_id := transaction_id }
  (transaction_id, (w.add_transaction account_index transaction).2)

/-- TransactionManager.send_transaction: create, sign, broadcast; a
validation error propagates out of the raising call before any state
is produced. -/
def TransactionManager.send_transaction (w : AleoWalletCore) (account_index : Int)
    (recipient_address : String) (amount : ℚ) (memo : String) (now : Nat) :
    Except TxError (String × AleoWalletCore) :=
  match TransactionManager.create_transaction w account_index recipient_address amount memo now with
  | Except.error e => Except.error e
  | Except.ok transaction =>
    match TransactionManager.sign_transaction w account_index transaction now with
    | Except.error e => Except.error e
    | Except.ok signed =>
      Except.ok (TransactionManager.broadcast_transaction w account_index signed now)

/-- The loop of TransactionManager.update_transaction_status: walk the
history and overwrite the status of the first transaction whose id
matches, unconditionally, whatever its current status is. -/
def setStatusFirstMatch : List Transaction → String → String → Option (List Transaction)
  | [], _, _ => none
  | tx :: rest, transaction_id, status =>
    if tx.transaction_id = transaction_id then
      some ({ tx with status := status } :: rest)
    else
      (setStatusFirstMatch rest transaction_id status).map (fun l => tx :: l)

/-- TransactionManager.update_transaction_status. -/
def TransactionManager.update_transaction_status (w : AleoWalletCore) (account_index : Int)
    (transaction_id : String) (status : String) : Bool × AleoWalletCore :=
  match setStatusFirstMatch (w.get_transactions account_index none none) transaction_id status with
  | some transactions =>
    (true, { w with accounts := listModify w.accounts account_index.toNat (fun a => { a with transactions := transactions }) })
  | none => (false, w)

/-- Decision helper: whether an Except result is an ok value. -/
def exceptIsOk (e : Except TxError Transaction) : Bool :=
  match e with
  | Except.ok _ => true
  | Except.error _ => false

/-- BlockchainIntegration state, from __init__ (the fields the verified
claims touch). -/
structure BlockchainIntegration where
  wallet_core : AleoWalletCore
  is_connected : Bool := false
  last_sync_time : Nat := 0
  latest_block_height : Nat := 0
deriving DecidableEq

/-- BlockchainIntegration.check_network_status: one latest-height probe
decides the status.  The probe is an external network call, passed in
as some height on success and none on a raised error; notification
callbacks are GUI side effects outside this model. -/
def BlockchainIntegration.check_network_status (b : BlockchainIntegration)
    (probe : Option Nat) : Bool × BlockchainIntegration :=
  match probe with
  | some _ => (true, { b with is_connected := true })
  | none => (false, { b with is_connected := false })

/-- BlockchainIntegration._update_account_balance: recompute the
balance of one account as a fold over its full transaction history;
the status of a transaction is never consulted. -/
def BlockchainIntegration.update_account_balance (b : BlockchainIntegration)
    (account_index : Int) : BlockchainIntegration :=
  match b.wallet_core.get_account account_index with
  | none => b
  | some _ =>
    let transactions := b.wallet_core.get_transactions account_index none none
    let balance := transactions.foldl
      (fun bal tx =>
        if tx.type = "Received" then bal + tx.amount
        else if tx.type = "Sent" then bal - (tx.amount + tx.fee)
        else bal) 0
    { b with wallet_core := { b.wallet_core with accounts := listModify b.wallet_core.accounts account_index.toNat (fun a => { a with balance := balance }) } }

/-- Bytes of a string, for hashing string inputs. -/
def strBytes (s : String) : List Nat :=
  s.toList.map Char.toNat

/-- Stand-in for hashlib.sha256: an executable, deterministic 32-byte
digest.  No verified claim depends on the digest values, only on the
function being a fixed pure map to 32 bytes. -/
def sha256Bytes (input : List Nat) : List Nat :=
  (List.range 32).map (fun i =>
    input.foldl (fun acc b => (acc * 131 + b + 17) % 256) ((i * 31 + input.length) % 256))

/-- SecurityManager.derive_key_from_password: PBKDF2HMAC(SHA256, 32,
salt, 100000).  Library code, modelled as a deterministic stand-in
keyed by salt and password. -/
def derive_key_from_password (password : String) (salt : List Nat) : List Nat :=
  sha256Bytes (salt ++ strBytes password)

/-- SecurityProfile state, from SecurityManager.default_settings and
the fields written by create/verify_master_password. -/
structure SecuritySettings where
  password_required : Bool := true
  auto_lock_timeout : Nat := 300
  failed_attempts_limit : Nat := 5
  last_access : Nat := 0
  failed_attempts : Nat := 0
  locked : Bool := false
  lockout_time : Nat := 0
  password_salt : Option (List Nat) := none
  password_hash : Option (List Nat) := none
deriving DecidableEq

/-- SecurityManager.verify_master_password.  Settings persistence
(save_security_settings) is disk I/O and is not part of the state
transition; time.time() is the explicit now argument. -/
def SecurityManager.verify_master_password (s : SecuritySettings) (password : String)
    (now : Nat) : Bool × SecuritySettings :=
  if s.password_required = false then (true, s)
  else if s.locked ∧ (now : Int) - (s.lockout_time : Int) < 3600 then (false, s)
  else
    let s1 := if s.locked then { s with locked := false, failed_attempts := 0 } else s
    match s1.password_salt, s1.password_hash with
    | some salt, some stored_hash =>
      let key := derive_key_from_password password salt
      let computed_hash := sha256Bytes key
      if computed_hash = stored_hash then
        (true, { s1 with failed_attempts := 0, last_access := now })
      else
        let failed_attempts := s1.failed_attempts + 1
        let s2 := { s1 with failed_attempts := failed_attempts }
        if s1.failed_attempts_limit ≤ failed_attempts then
          (false, { s2 with locked := true, lockout_time := now })
        else (false, s2)
    | _, _ => (false, s1)

/-- The standard base64 alphabet used by Python's base64.b64encode. -/
def b64Table : List Char :=
  "ABCDEFGHIJKLMNOPQRSTUVWXYZabcdefghijklmnopqrstuvwxyz0123456789+/".toList

/-- Character of a 6-bit group. -/
def b64Char (n : Nat) : Char :=
  b64Table.getD n 'A'

/-- Index of a character in the base64 alphabet. -/
def b64DecChar (c : Char) : Nat :=
  b64Table.indexOf c

/-- base64.b64encode on a byte list: three bytes become four alphabet
characters; a trailing group of two or one bytes is padded with one or
two = characters. -/
def b64encodeBytes : List Nat → List Char
  | a :: b :: c :: rest =>
    b64Char (a / 4) :: b64Char (a % 4 * 16 + b / 16) ::
      b64Char (b % 16 * 4 + c / 64) :: b64Char (c % 64) :: b64encodeBytes rest
  | [a, b] => [b64Char (a / 4), b64Char (a % 4 * 16 + b / 16), b64Char (b % 16 * 4), '=']
  | [a] => [b64Char (a / 4), b64Char (a % 4 * 16), '=', '=']
  | [] => []

/-- base64.b64decode in its default non-strict mode: groups of four
characters are decoded; a = in the third or fourth position ends the
data and everything after it is ignored (which is how the source gets
away with appending two extra padding characters); a leftover group of
fewer than four characters is the incorrect-padding error. -/
def b64decodeChars : List Char → Option (List Nat)
  | [] => some []
  | c1 :: c2 :: c3 :: c4 :: rest =>
    if c3 = '=' then some [b64DecChar c1 * 4 + b64DecChar c2 / 16]
    else if c4 = '=' then
      some [b64DecChar c1 * 4 + b64DecChar c2 / 16,
            b64DecChar c2 % 16 * 16 + b64DecChar c3 / 4]
    else
      (b64decodeChars rest).map (fun tail =>
        (b64DecChar c1 * 4 + b64DecChar c2 / 16) ::
          (b64DecChar c2 % 16 * 16 + b64DecChar c3 / 4) ::
            (b64DecChar c3 % 4 * 64 + b64DecChar c4) :: tail)
  | _ => none

/-- View key derivation shared by generate_account and by
the import path: AViewKey1 plus 46 base64 characters of
sha256(seed). -/
def deriveViewKey (seed : List Nat) : String :=
  "AViewKey1" ++ String.mk ((b64encodeBytes (sha256Bytes seed)).take 46)

/-- Address derivation shared by both paths: aleo1 plus 58 base64
characters of sha256(sha256(seed)). -/
def deriveAddress (seed : List Nat) : String :=
  "aleo1" ++ String.mk ((b64encodeBytes (sha256Bytes (sha256Bytes seed))).take 58)

/-- Private key built by generate_account from the random 32-byte seed
(secrets.token_bytes is modelled by passing the seed in). -/
def derivePrivateKey (seed : List Nat) : String :=
  "APrivateKey1" ++ String.mk ((b64encodeBytes seed).take 52)

/-- AleoWalletCore.generate_account: build the key material from a
fresh random seed and append the new account.  save_wallet is called by
the source afterwards; persistence is modelled separately. -/
def AleoWalletCore.generate_account (w : AleoWalletCore) (seed : List Nat)
    (name : Option String) (now : Nat) : Account × AleoWalletCore :=
  let account : Account :=
    { name := name.getD ("Account " ++ toString (w.accounts.length + 1)),
      private_key := derivePrivateKey seed,
      view_key := deriveViewKey seed,
      address := deriveAddress seed,
      created_at := now, balance := 0, transactions := [], contacts := [] }
  (account, { w with accounts := w.accounts ++ [account] })

/-- Seed recovery in import_account_from_private_key: strip the
APrivateKey1 marker (12 characters), base64-decode with two extra
padding characters appended; if decoding raises, fall back to hashing
the whole key string. -/
def importSeed (private_key : String) : List Nat :=
  let seed_b64 := private_key.toList.drop 12
  match b64decodeChars (seed_b64 ++ ['=', '=']) with
  | some seed => seed
  | none => sha256Bytes (strBytes private_key)

/-- AleoWalletCore.import_account_from_private_key: format check (a
ValueError raise, modelled as none), then the same view-key and address
derivation as generate_account applied to the recovered seed. -/
def AleoWalletCore.import_account_from_private_key (w : AleoWalletCore)
    (private_key : String) (name : Option String) (now : Nat) :
    Option (Account × AleoWalletCore) :=
  if strStartsWith private_key "APrivateKey1" = false then none
  else
    let seed := importSeed private_key
    let account : Account :=
      { name := name.getD ("Imported Account " ++ toString (w.accounts.length + 1)),
        private_key := private_key,
        view_key := deriveViewKey seed,
        address := deriveAddress seed,
        created_at := now, balance := 0, transactions := [], contacts := [] }
    some (account, { w with accounts := w.accounts ++ [account] })

/-- The observable outcome of an import call: the view key and address
of the account it creates, when the key passes the format check. -/
def importedKeys (w : AleoWalletCore) (private_key : String) (name : Option String)
    (now : Nat) : Option (String × String) :=
  (w.import_account_from_private_key private_key name now).map
    (fun p => (p.1.view_key, p.1.address))

/-- The signed balance contribution a single recorded transaction makes
in AleoWalletCore.add_transaction: amount received, amount plus fee
subtracted when sent, nothing for any other type string. -/
def txDelta (t : Transaction) : ℚ :=
  if t.type = "Sent" then -(t.amount + t.fee)
  else if t.type = "Received" then t.amount
  else 0

/-- Sum of the signed contributions of a transaction history,
independent of any status field. -/
def sumTxDelta (txs : List Transaction) : ℚ :=
  (txs.map txDelta).sum

/-- The balance the specification prescribes: signed contributions of
the Confirmed transactions only. -/
def confirmedSum (txs : List Transaction) : ℚ :=
  ((txs.filter (fun t => t.status = "Confirmed")).map txDelta).sum

/-- A sequence of record-transaction calls against one account. -/
def recordAll (w : AleoWalletCore) (i : Int) (txs : List Transaction) : AleoWalletCore :=
  txs.foldl (fun wacc t => (wacc.add_transaction i t).2) w

/-- Fixture: a wallet holding one freshly created account with zero
balance and empty history. -/
def zeroAccountWallet : AleoWalletCore :=
  { accounts := [{}] }

/-- Fixture: a Pending incoming transaction of amount 1. -/
def pendingReceived : Transaction :=
  { type := "Received", amount := 1, status := "Pending", transaction_id := "tp1" }

/-- Fixture: a Confirmed incoming transaction of amount 1. -/
def confirmedReceived : Transaction :=
  { type := "Received", amount := 1, status := "Confirmed", transaction_id := "t1" }

/-- Fixture: a wallet holding one account with balance 1. -/
def fullBalanceWallet : AleoWalletCore :=
  { accounts := [{ address := "aleo1sender", balance := 1 }] }

/-- Fixture: a recipient address passing validate_address. -/
def validRecipient : String :=
  "aleo1" ++ String.mk (List.replicate 55 'q')

/-- A sequence of verify_master_password attempts with one password,
at the given sequence of clock readings. -/
def verifyIter (s : SecuritySettings) (password : String) : List Nat → SecuritySettings
  | [] => s
  | n :: rest => verifyIter (SecurityManager.verify_master_password s password n).2 password rest

/-- Fixture: salt of a stored master password. -/
def secSalt : List Nat := [1, 2]

/-- Fixture: stored hash of the master password pw under secSalt. -/
def secStored : List Nat := sha256Bytes (derive_key_from_password "pw" secSalt)

/-- Fixture: a fresh security profile protecting the password pw, with
the default limit of 5 failed attempts. -/
def cleanSecuritySettings : SecuritySettings :=
  { password_salt := some secSalt, password_hash := some secStored }

-- THEOREMS

theorem listModify_length (l : List α) (n : Nat) (f : α → α) :
    (listModify l n f).length = l.length := by
  induction l generalizing n with
  | nil => simp [listModify]
  | cons x xs ih =>
    cases n with
    | zero => simp [listModify]
    | succ m => simp [listModify, ih]

theorem getD_listModify_self (l : List α) (n : Nat) (f : α → α) (d : α)
    (h : n < l.length) : (listModify l n f).getD n d = f (l.getD n d) := by
  induction l generalizing n with
  | nil => simp at h
  | cons x xs ih =>
    cases n with
    | zero => simp [listModify]
    | succ m =>
      simp only [listModify, List.getD_cons_succ]
      exact ih m (by simpa using h)

theorem applyTx_balance (a : Account) (t : Transaction) :
    (applyTxToAccount a t).balance = a.balance + txDelta t := by
  unfold applyTxToAccount txDelta
  by_cases hs : t.type = "Sent"
  · simp [hs, sub_eq_add_neg]
  · by_cases hr : t.type = "Received"
    · simp [hs, hr]
    · simp [hs, hr]

theorem applyTx_transactions (a : Account) (t : Transaction) :
    (applyTxToAccount a t).transactions = t :: a.transactions := by
  unfold applyTxToAccount
  by_cases hs : t.type = "Sent"
  · simp [hs]
  · by_cases hr : t.type = "Received"
    · simp [hs, hr]
    · simp [hs, hr]

theorem add_transaction_length (w : AleoWalletCore) (i : Int) (t : Transaction) :
    ((w.add_transaction i t).2).accounts.length = w.accounts.length := by
  unfold AleoWalletCore.add_transaction
  split
  · simp [listModify_length]
  · rfl

theorem get_balance_add_transaction (w : AleoWalletCore) (i : Int) (t : Transaction)
    (h0 : 0 ≤ i) (h1 : i < (w.accounts.length : Int)) :
    ((w.add_transaction i t).2).get_balance i = w.get_balance i + txDelta t := by
  have hn : i.toNat < w.accounts.length := by omega
  have hadd : (w.add_transaction i t).2 =
      { w with accounts := listModify w.accounts i.toNat (fun a => applyTxToAccount a t) } := by
    unfold AleoWalletCore.add_transaction
    rw [if_pos ⟨h0, h1⟩]
  rw [hadd]
  simp only [AleoWalletCore.get_balance, listModify_length]
  rw [if_pos ⟨h0, h1⟩, if_pos ⟨h0, h1⟩]
  simp only [accountAtD]
  rw [getD_listModify_self _ _ _ _ hn]
  exact applyTx_balance _ _

theorem recordAll_balance (txs : List Transaction) (w : AleoWalletCore) (i : Int)
    (h0 : 0 ≤ i) (h1 : i < (w.accounts.length : Int)) :
    (recordAll w i txs).get_balance i = w.get_balance i + sumTxDelta txs := by
  induction txs generalizing w with
  | nil => simp [recordAll, sumTxDelta]
  | cons t ts ih =>
    have hlen := add_transaction_length w i t
    have step := get_balance_add_transaction w i t h0 h1
    have h1b : i < (((w.add_transaction i t).2).accounts.length : Int) := by
      rw [hlen]; exact h1
    have tailEq := ih ((w.add_transaction i t).2) h1b
    calc (recordAll w i (t :: ts)).get_balance i
        = (recordAll ((w.add_transaction i t).2) i ts).get_balance i := by
          simp [recordAll]
      _ = ((w.add_transaction i t).2).get_balance i + sumTxDelta ts := tailEq
      _ = (w.get_balance i + txDelta t) + sumTxDelta ts := by rw [step]
      _ = w.get_balance i + sumTxDelta (t :: ts) := by
          simp [sumTxDelta]; ring

theorem foldl_balance_eq (txs : List Transaction) (init : ℚ) :
    txs.foldl (fun bal tx =>
      if tx.type = "Received" then bal + tx.amount
      else if tx.type = "Sent" then bal - (tx.amount + tx.fee)
      else bal) init = init + sumTxDelta txs := by
  induction txs generalizing init with
  | nil => simp [sumTxDelta]
  | cons t ts ih =>
    have hstep : (if t.type = "Received" then init + t.amount
        else if t.type = "Sent" then init - (t.amount + t.fee)
        else init) = init + txDelta t := by
      unfold txDelta
      by_cases hr : t.type = "Received"
      · have hs : ¬ t.type = "Sent" := by
          rw [hr]; decide
        simp [hr, hs]
      · by_cases hs : t.type = "Sent"
        · simp [hr, hs, sub_eq_add_neg]
        · simp [hr, hs]
    simp only [List.foldl_cons, hstep, ih]
    simp [sumTxDelta]; ring

/-- C7: For every amount and memo, the fee computed by calculate_fee
equals max(min_fee, base_fee + memo_length * per_byte_fee). -/
theorem C7_fee_formula (amount : ℚ) (memo : String) :
    TransactionManager.calculate_fee amount memo =
      max TransactionManager.min_fee
        (TransactionManager.default_fee + (memo.length : ℚ) * TransactionManager.fee_per_byte) := by
  unfold TransactionManager.calculate_fee
  by_cases h : memo = ""
  · subst h
    simp [max_comm]
  · simp [h, max_comm]

/-- C9: The connectivity probe flips the stored network status to
disconnected after a single failed probe, a single successful probe
restores connected, and the returned boolean is the probe outcome. -/
theorem C9_connectivity_probe_flips_status (b : BlockchainIntegration) (h : Nat) :
    b.check_network_status (some h) = (true, { b with is_connected := true }) ∧
    b.check_network_status none = (false, { b with is_connected := false }) := by
  constructor <;> rfl

/-- C10: Every index-based accessor and mutator is total over arbitrary
integer indices: outside the valid range, get_account yields none,
get_balance 0, get_transactions and get_contacts the empty list, and
every mutator returns false leaving the wallet unchanged; nothing can
raise an out-of-bounds error. -/
theorem C10_out_of_range_indices_total (w : AleoWalletCore) (i : Int)
    (h : i < 0 ∨ (w.accounts.length : Int) ≤ i) :
    w.get_account i = none ∧
    w.get_balance i = 0 ∧
    (∀ limit filter_type, w.get_transactions i limit filter_type = []) ∧
    w.get_contacts i = [] ∧
    (∀ u, w.update_account i u = (false, w)) ∧
    w.delete_account i = (false, w) ∧
    (∀ t, w.add_transaction i t = (false, w)) ∧
    (∀ c, w.add_contact i c = (false, w)) ∧
    (∀ j, w.remove_contact i j = (false, w)) := by
  have hneg : ¬ (0 ≤ i ∧ i < (w.accounts.length : Int)) := by omega
  refine ⟨?_, ?_, ?_, ?_, ?_, ?_, ?_, ?_, ?_⟩
  · simp [AleoWalletCore.get_account, hneg]
  · simp [AleoWalletCore.get_balance, hneg]
  · intro limit filter_type
    simp [AleoWalletCore.get_transactions, hneg]
  · simp [AleoWalletCore.get_contacts, hneg]
  · intro u
    simp [AleoWalletCore.update_account, hneg]
  · simp [AleoWalletCore.delete_account, hneg]
  · intro t
    simp [AleoWalletCore.add_transaction, hneg]
  · intro c
    simp [AleoWalletCore.add_contact, hneg]
  · intro j
    simp [AleoWalletCore.remove_contact, hneg]

/-- Witness for C10 at the empty wallet and index -1. -/
theorem C10_witness :
    ((-1 : Int) < 0 ∨ ((({} : AleoWalletCore).accounts.length : Int) ≤ -1)) ∧
    ({} : AleoWalletCore).get_account (-1) = none := by
  refine ⟨by decide, ?_⟩
  exact (C10_out_of_range_indices_total {} (-1) (by decide)).1


theorem txDelta_pendingReceived : txDelta pendingReceived = 1 := by
  simp [txDelta, pendingReceived]

theorem txDelta_confirmedReceived : txDelta confirmedReceived = 1 := by
  simp [txDelta, confirmedReceived]

/-- C1 counterexample: recording a single Pending received transaction
of amount 1 moves the stored balance from 0 to 1, while the sum over
Confirmed transactions of the resulting history is 0 — so the stored
balance does not equal the confirmed-only sum and a Pending transaction
does change the balance. -/
theorem C1_counterexample_pending_changes_balance :
    zeroAccountWallet.get_balance 0 = 0 ∧
    ((zeroAccountWallet.add_transaction 0 pendingReceived).2).get_balance 0 = 1 ∧
    confirmedSum (((zeroAccountWallet.add_transaction 0 pendingReceived).2).get_transactions 0 none none) = 0 := by
  have hbal : zeroAccountWallet.get_balance 0 = 0 := by
    simp [zeroAccountWallet, AleoWalletCore.get_balance, accountAtD, dummyAccount]
  refine ⟨hbal, ?_, ?_⟩
  · rw [get_balance_add_transaction zeroAccountWallet 0 pendingReceived (by decide) (by decide)]
    rw [hbal, txDelta_pendingReceived]
    norm_num
  · simp [zeroAccountWallet, AleoWalletCore.add_transaction, listModify,
      applyTxToAccount, pendingReceived, AleoWalletCore.get_transactions,
      accountAtD, confirmedSum]

/-- C1 (amended): after any sequence of add_transaction calls against a
valid account index, the stored balance equals its starting value plus
the signed sum over ALL recorded transactions — amount for Received,
minus amount plus fee for Sent — regardless of their status (Pending
included) and counting every duplicate; and _update_account_balance
recomputes the balance as exactly that all-status signed sum of the
stored history. -/
theorem C1_amended_balance_sums_all_statuses (i : Int) :
    (∀ (w : AleoWalletCore) (txs : List Transaction),
      0 ≤ i → i < (w.accounts.length : Int) →
      (recordAll w i txs).get_balance i = w.get_balance i + sumTxDelta txs) ∧
    (∀ (b : BlockchainIntegration),
      0 ≤ i → i < (b.wallet_core.accounts.length : Int) →
      ((b.update_account_balance i).wallet_core.get_balance i) =
        sumTxDelta (b.wallet_core.get_transactions i none none)) := by
  constructor
  · intro w txs h0 h1
    exact recordAll_balance txs w i h0 h1
  · intro b h0 h1
    have hn : i.toNat < b.wallet_core.accounts.length := by omega
    have hacct : b.wallet_core.get_account i = some (accountAtD b.wallet_core i.toNat) := by
      unfold AleoWalletCore.get_account
      rw [if_pos ⟨h0, h1⟩]
    unfold BlockchainIntegration.update_account_balance
    rw [hacct]
    simp only [AleoWalletCore.get_balance, listModify_length]
    rw [if_pos ⟨h0, h1⟩]
    simp only [accountAtD]
    rw [getD_listModify_self _ _ _ _ hn]
    rw [foldl_balance_eq]
    rw [zero_add]

/-- Witness for the amended C1 at a concrete one-account wallet and a
single Pending transaction. -/
theorem C1_amended_witness :
    (recordAll zeroAccountWallet 0 [pendingReceived]).get_balance 0 =
      zeroAccountWallet.get_balance 0 + sumTxDelta [pendingReceived] :=
  (C1_amended_balance_sums_all_statuses 0).1 zeroAccountWallet [pendingReceived]
    (by decide) (by decide)

/-- C2 counterexample: re-recording the very same Confirmed transaction
(same transaction_id t1) is not a no-op on the balance — it goes 0, 1,
2 — and update_transaction_status happily moves that Confirmed
transaction back to Pending, returning true. -/
theorem C2_counterexample_duplicate_id_and_status_regression :
    ((zeroAccountWallet.add_transaction 0 confirmedReceived).2).get_balance 0 = 1 ∧
    (((zeroAccountWallet.add_transaction 0 confirmedReceived).2).add_transaction 0 confirmedReceived).2.get_balance 0 = 2 ∧
    (TransactionManager.update_transaction_status
      (zeroAccountWallet.add_transaction 0 confirmedReceived).2 0 "t1" "Pending").1 = true ∧
    ((TransactionManager.update_transaction_status
      (zeroAccountWallet.add_transaction 0 confirmedReceived).2 0 "t1" "Pending").2.get_transactions 0 none none).map Transaction.status = ["Pending"] := by
  have hbal : zeroAccountWallet.get_balance 0 = 0 := by
    simp [zeroAccountWallet, AleoWalletCore.get_balance, accountAtD, dummyAccount]
  have h1 : ((zeroAccountWallet.add_transaction 0 confirmedReceived).2).get_balance 0 = 1 := by
    rw [get_balance_add_transaction zeroAccountWallet 0 confirmedReceived (by decide) (by decide)]
    rw [hbal, txDelta_confirmedReceived]
    norm_num
  refine ⟨h1, ?_, ?_, ?_⟩
  · rw [get_balance_add_transaction _ 0 confirmedReceived (by decide)
      (by rw [add_transaction_length]; decide)]
    rw [h1, txDelta_confirmedReceived]
    norm_num
  · simp [zeroAccountWallet, AleoWalletCore.add_transaction, listModify,
      applyTxToAccount, confirmedReceived, AleoWalletCore.get_transactions,
      accountAtD, TransactionManager.update_transaction_status, setStatusFirstMatch]
  · simp [zeroAccountWallet, AleoWalletCore.add_transaction, listModify,
      applyTxToAccount, confirmedReceived, AleoWalletCore.get_transactions,
      accountAtD, TransactionManager.update_transaction_status, setStatusFirstMatch]

/-- C2 (amended): add_transaction never looks at transaction_id, so
re-recording an already-present transaction applies its balance delta a
second time (re-ingestion is a no-op only for zero-delta transactions);
and update_transaction_status overwrites the status of the first
matching transaction unconditionally, so a Confirmed or Failed
transaction can revert to Pending. -/
theorem C2_amended_no_dedup_and_unconditional_status :
    (∀ (w : AleoWalletCore) (i : Int) (t : Transaction),
      0 ≤ i → i < (w.accounts.length : Int) →
      (((w.add_transaction i t).2).add_transaction i t).2.get_balance i =
        w.get_balance i + txDelta t + txDelta t) ∧
    (∀ (t : Transaction) (rest : List Transaction) (status : String),
      setStatusFirstMatch (t :: rest) t.transaction_id status =
        some ({ t with status := status } :: rest)) := by
  constructor
  · intro w i t h0 h1
    have h1b : i < ((((w.add_transaction i t).2)).accounts.length : Int) := by
      rw [add_transaction_length]; exact h1
    rw [get_balance_add_transaction _ i t h0 h1b,
        get_balance_add_transaction w i t h0 h1]
  · intro t rest status
    simp [setStatusFirstMatch]

/-- Witness for the amended C2 at the concrete duplicate ingestion. -/
theorem C2_amended_witness :
    (((zeroAccountWallet.add_transaction 0 confirmedReceived).2).add_transaction 0 confirmedReceived).2.get_balance 0 =
      zeroAccountWallet.get_balance 0 + txDelta confirmedReceived + txDelta confirmedReceived :=
  (C2_amended_no_dedup_and_unconditional_status).1 zeroAccountWallet 0 confirmedReceived
    (by decide) (by decide)

/-- C3: encrypting the vault and saving it, then decrypting the saved
file with the same password, succeeds and restores the accounts
structure exactly; decrypting with any different password fails —
reported as the False result of the caught authentication failure — and
installs no account data at all (the in-memory state is untouched). -/
theorem C3_vault_roundtrip_wrong_password_fails
    (w w2 : AleoWalletCore) (password wrong : String) (salt : List Nat)
    (hq : wrong ≠ password) :
    (w2.decrypt_wallet ((w.encrypt_wallet password salt).save_wallet) password).1 = true ∧
    (w2.decrypt_wallet ((w.encrypt_wallet password salt).save_wallet) password).2.accounts = w.accounts ∧
    w2.decrypt_wallet ((w.encrypt_wallet password salt).save_wallet) wrong = (false, w2) := by
  have hfile : (w.encrypt_wallet password salt).save_wallet =
      VaultFile.encFile salt
        (fernetEncrypt (derive_key password salt) { accounts := w.accounts, version := "1.0" }) := by
    rfl
  rw [hfile]
  have hkey : derive_key password salt ≠ derive_key wrong salt := by
    intro h
    exact hq (by injection h with h1 h2; exact h1.symm)
  refine ⟨?_, ?_, ?_⟩
  · simp [AleoWalletCore.decrypt_wallet, fernetDecrypt, fernetEncrypt]
  · simp [AleoWalletCore.decrypt_wallet, fernetDecrypt, fernetEncrypt]
  · simp only [AleoWalletCore.decrypt_wallet, fernetDecrypt, fernetEncrypt]
    rw [if_neg hkey]

/-- Witness for C3 at a concrete wallet, password pair and salt. -/
theorem C3_witness :
    ("b" : String) ≠ "a" ∧
    ((({} : AleoWalletCore).decrypt_wallet
      ((zeroAccountWallet.encrypt_wallet "a" []).save_wallet) "a").1 = true) :=
  ⟨by decide,
   (C3_vault_roundtrip_wrong_password_fails zeroAccountWallet {} "a" "b" [] (by decide)).1⟩

/-- C4 counterexample: with balance 1 and the empty-memo fee 0.001, an
amount of 0.999 consumes the full balance (amount plus fee equals the
balance), yet create_transaction succeeds for it — and, because create
neither mutates nor locks any state, a second identical call against
the same wallet state succeeds as well: it is false that at most one of
two full-balance creates succeeds. -/
theorem C4_counterexample_both_full_balance_creates_succeed :
    (999 : ℚ) / 1000 + TransactionManager.calculate_fee ((999 : ℚ) / 1000) "" =
      fullBalanceWallet.get_balance 0 ∧
    exceptIsOk (TransactionManager.create_transaction fullBalanceWallet 0 validRecipient
      ((999 : ℚ) / 1000) "" 1) = true ∧
    exceptIsOk (TransactionManager.create_transaction fullBalanceWallet 0 validRecipient
      ((999 : ℚ) / 1000) "" 2) = true := by
  have hfee : TransactionManager.calculate_fee ((999 : ℚ) / 1000) "" = 1 / 1000 := by
    simp [TransactionManager.calculate_fee, TransactionManager.default_fee,
      TransactionManager.min_fee]
    norm_num
  have hbal : fullBalanceWallet.get_balance 0 = 1 := by
    simp [fullBalanceWallet, AleoWalletCore.get_balance, accountAtD]
  have hvalid : AleoWalletCore.validate_address validRecipient = true := by decide
  have hacct : fullBalanceWallet.get_account 0 = some (accountAtD fullBalanceWallet 0) := by
    simp [AleoWalletCore.get_account, fullBalanceWallet]
  have hok : ∀ n : Nat, exceptIsOk (TransactionManager.create_transaction fullBalanceWallet 0
      validRecipient ((999 : ℚ) / 1000) "" n) = true := by
    intro n
    unfold TransactionManager.create_transaction
    rw [if_neg (by norm_num), hvalid]
    simp only [Bool.true_eq_false, if_false, hacct, hfee, hbal]
    rw [if_neg (by norm_num)]
    rfl
  exact ⟨by rw [hfee, hbal]; norm_num, hok 1, hok 2⟩

/-- C4 (amended): create_transaction performs no locking and never
mutates any account state: it only reads the shared balance, so any
number of overlapping create calls — here two, issued at times n1 and
n2 against the same wallet state — that each request the full spendable
balance (amount + fee equal to the balance) all succeed; the balance is
only debited later, at broadcast time, so nothing serializes the
checks. -/
theorem C4_amended_creates_not_serialized
    (w : AleoWalletCore) (i : Int) (r : String) (a : ℚ) (m : String) (n1 n2 : Nat)
    (hpos : 0 < a) (hr : AleoWalletCore.validate_address r = true)
    (h0 : 0 ≤ i) (h1 : i < (w.accounts.length : Int))
    (hbal : a + TransactionManager.calculate_fee a m ≤ w.get_balance i) :
    exceptIsOk (TransactionManager.create_transaction w i r a m n1) = true ∧
    exceptIsOk (TransactionManager.create_transaction w i r a m n2) = true := by
  have hacct : w.get_account i = some (accountAtD w i.toNat) := by
    unfold AleoWalletCore.get_account
    rw [if_pos ⟨h0, h1⟩]
  have hok : ∀ n : Nat, exceptIsOk (TransactionManager.create_transaction w i r a m n) = true := by
    intro n
    unfold TransactionManager.create_transaction
    rw [if_neg (by linarith), hr]
    simp only [Bool.true_eq_false, if_false, hacct]
    rw [if_neg (by linarith)]
    rfl
  exact ⟨hok n1, hok n2⟩

/-- Witness for the amended C4 at a concrete full-balance request. -/
theorem C4_amended_witness :
    exceptIsOk (TransactionManager.create_transaction fullBalanceWallet 0 validRecipient
      ((999 : ℚ) / 1000) "" 7) = true ∧
    exceptIsOk (TransactionManager.create_transaction fullBalanceWallet 0 validRecipient
      ((999 : ℚ) / 1000) "" 8) = true :=
  C4_amended_creates_not_serialized fullBalanceWallet 0 validRecipient ((999 : ℚ) / 1000) "" 7 8
    (by norm_num) (by decide) (by decide) (by decide)
    (by simp [TransactionManager.calculate_fee, TransactionManager.default_fee,
          TransactionManager.min_fee, fullBalanceWallet, AleoWalletCore.get_balance, accountAtD]
        norm_num)

/-- C6: create_transaction validates the amount, the recipient address
format and the balance against amount plus fee; each failing validation
is reported synchronously as the corresponding error from the call that
detected it, and send_transaction propagates exactly that error without
producing any new wallet state — no balance or history change happens
on a validation failure. -/
theorem C6_validation_errors_synchronous :
    (∀ (w : AleoWalletCore) (i : Int) (r : String) (a : ℚ) (m : String) (n : Nat),
      a ≤ 0 →
      TransactionManager.create_transaction w i r a m n =
        Except.error TxError.amountNotPositive) ∧
    (∀ (w : AleoWalletCore) (i : Int) (r : String) (a : ℚ) (m : String) (n : Nat),
      0 < a → AleoWalletCore.validate_address r = false →
      TransactionManager.create_transaction w i r a m n =
        Except.error TxError.invalidRecipient) ∧
    (∀ (w : AleoWalletCore) (i : Int) (r : String) (a : ℚ) (m : String) (n : Nat) (acct : Account),
      0 < a → AleoWalletCore.validate_address r = true → w.get_account i = some acct →
      w.get_balance i < a + TransactionManager.calculate_fee a m →
      TransactionManager.create_transaction w i r a m n =
        Except.error TxError.insufficientBalance) ∧
    (∀ (w : AleoWalletCore) (i : Int) (r : String) (a : ℚ) (m : String) (n : Nat) (e : TxError),
      TransactionManager.create_transaction w i r a m n = Except.error e →
      TransactionManager.send_transaction w i r a m n = Except.error e) := by
  refine ⟨?_, ?_, ?_, ?_⟩
  · intro w i r a m n ha
    unfold TransactionManager.create_transaction
    rw [if_pos ha]
  · intro w i r a m n ha hr
    unfold TransactionManager.create_transaction
    rw [if_neg (by linarith), hr]
    simp
  · intro w i r a m n acct ha hr hacct hbal
    unfold TransactionManager.create_transaction
    rw [if_neg (by linarith), hr]
    simp only [Bool.true_eq_false, if_false, hacct]
    rw [if_pos hbal]
  · intro w i r a m n e herr
    unfold TransactionManager.send_transaction
    rw [herr]

/-- Witness for C6 at a concrete zero-amount request. -/
theorem C6_witness :
    TransactionManager.create_transaction fullBalanceWallet 0 validRecipient 0 "" 3 =
      Except.error TxError.amountNotPositive :=
  C6_validation_errors_synchronous.1 fullBalanceWallet 0 validRecipient 0 "" 3 (by norm_num)

theorem verify_wrong_below_limit (s : SecuritySettings) (p : String) (now : Nat)
    (salt stored : List Nat)
    (hreq : s.password_required = true) (hlock : s.locked = false)
    (hsalt : s.password_salt = some salt) (hhash : s.password_hash = some stored)
    (hwrong : sha256Bytes (derive_key_from_password p salt) ≠ stored)
    (hbelow : s.failed_attempts + 1 < s.failed_attempts_limit) :
    SecurityManager.verify_master_password s p now =
      (false, { s with failed_attempts := s.failed_attempts + 1 }) := by
  unfold SecurityManager.verify_master_password
  rw [hreq]
  rw [if_neg (by simp)]
  rw [hlock]
  rw [if_neg (by simp)]
  simp only [Bool.false_eq_true, if_false, hsalt, hhash]
  rw [if_neg hwrong]
  rw [if_neg (by omega)]
  simp [hreq, hlock]

theorem verify_wrong_reaches_limit (s : SecuritySettings) (p : String) (now : Nat)
    (salt stored : List Nat)
    (hreq : s.password_required = true) (hlock : s.locked = false)
    (hsalt : s.password_salt = some salt) (hhash : s.password_hash = some stored)
    (hwrong : sha256Bytes (derive_key_from_password p salt) ≠ stored)
    (hlimit : s.failed_attempts_limit ≤ s.failed_attempts + 1) :
    SecurityManager.verify_master_password s p now =
      (false, { s with failed_attempts := s.failed_attempts + 1,
                       locked := true, lockout_time := now }) := by
  unfold SecurityManager.verify_master_password
  rw [hreq]
  rw [if_neg (by simp)]
  rw [hlock]
  rw [if_neg (by simp)]
  simp only [Bool.false_eq_true, if_false, hsalt, hhash]
  rw [if_neg hwrong]
  rw [if_pos (by omega)]
  simp [hreq, hlock]

/-- C8: from a clean state with the default limit of 5, five
consecutive wrong-password verifications leave the gate Locked with the
lockout clock set at the fifth failure (and it was not yet locked after
four); while Locked and before the 3600-second cooldown has elapsed,
every attempt — whatever password it carries, including the correct
one — is rejected with the state unchanged, so the password is never
re-checked; and a successful verification returns true, resets the
failed-attempt counter to zero and stamps last_access with the current
time. -/
theorem C8_lockout_state_machine :
    (∀ (s : SecuritySettings) (p : String) (salt stored : List Nat) (n1 n2 n3 n4 n5 : Nat),
      s.password_required = true → s.locked = false →
      s.password_salt = some salt → s.password_hash = some stored →
      s.failed_attempts = 0 → s.failed_attempts_limit = 5 →
      sha256Bytes (derive_key_from_password p salt) ≠ stored →
      (verifyIter s p [n1, n2, n3, n4]).locked = false ∧
      (verifyIter s p [n1, n2, n3, n4, n5]).locked = true ∧
      (verifyIter s p [n1, n2, n3, n4, n5]).lockout_time = n5 ∧
      (verifyIter s p [n1, n2, n3, n4, n5]).failed_attempts = 5) ∧
    (∀ (s : SecuritySettings) (q : String) (now : Nat),
      s.password_required = true → s.locked = true →
      (now : Int) - (s.lockout_time : Int) < 3600 →
      SecurityManager.verify_master_password s q now = (false, s)) ∧
    (∀ (s : SecuritySettings) (q : String) (salt stored : List Nat) (now : Nat),
      s.password_required = true → s.locked = false →
      s.password_salt = some salt → s.password_hash = some stored →
      sha256Bytes (derive_key_from_password q salt) = stored →
      (SecurityManager.verify_master_password s q now).1 = true ∧
      (SecurityManager.verify_master_password s q now).2.failed_attempts = 0 ∧
      (SecurityManager.verify_master_password s q now).2.last_access = now) := by
  refine ⟨?_, ?_, ?_⟩
  · intro s p salt stored n1 n2 n3 n4 n5 hreq hlock hsalt hhash hfa hlim hwrong
    have h1 : SecurityManager.verify_master_password s p n1 =
        (false, { s with failed_attempts := 1 }) := by
      rw [verify_wrong_below_limit s p n1 salt stored hreq hlock hsalt hhash hwrong (by omega)]
      rw [hfa]
    have h2 : SecurityManager.verify_master_password { s with failed_attempts := 1 } p n2 =
        (false, { s with failed_attempts := 2 }) := by
      rw [verify_wrong_below_limit _ p n2 salt stored (by simpa using hreq) (by simpa using hlock)
        (by simpa using hsalt) (by simpa using hhash) hwrong (by simp [hlim])]
    have h3 : SecurityManager.verify_master_password { s with failed_attempts := 2 } p n3 =
        (false, { s with failed_attempts := 3 }) := by
      rw [verify_wrong_below_limit _ p n3 salt stored (by simpa using hreq) (by simpa using hlock)
        (by simpa using hsalt) (by simpa using hhash) hwrong (by simp [hlim])]
    have h4 : SecurityManager.verify_master_password { s with failed_attempts := 3 } p n4 =
        (false, { s with failed_attempts := 4 }) := by
      rw [verify_wrong_below_limit _ p n4 salt stored (by simpa using hreq) (by simpa using hlock)
        (by simpa using hsalt) (by simpa using hhash) hwrong (by simp [hlim])]
    have h5 : SecurityManager.verify_master_password { s with failed_attempts := 4 } p n5 =
        (false, { s with failed_attempts := 5, locked := true, lockout_time := n5 }) := by
      rw [verify_wrong_reaches_limit _ p n5 salt stored (by simpa using hreq) (by simpa using hlock)
        (by simpa using hsalt) (by simpa using hhash) hwrong (by simp [hlim])]
    refine ⟨?_, ?_, ?_, ?_⟩ <;>
      simp only [verifyIter, h1, h2, h3, h4, h5] <;> simpa using hlock
  · intro s q now hreq hlock hwin
    unfold SecurityManager.verify_master_password
    rw [hreq]
    rw [if_neg (by simp)]
    rw [hlock]
    rw [if_pos (And.intro (by simp) hwin)]
  · intro s q salt stored now hreq hlock hsalt hhash hright
    unfold SecurityManager.verify_master_password
    rw [hreq]
    rw [if_neg (by simp)]
    rw [hlock]
    rw [if_neg (by simp)]
    simp only [Bool.false_eq_true, if_false, hsalt, hhash]
    rw [if_pos hright]
    exact ⟨rfl, rfl, rfl⟩

set_option maxRecDepth 100000 in
/-- Witness for C8: five wrong attempts against a concrete fresh
profile lock the gate. -/
theorem C8_witness :
    sha256Bytes (derive_key_from_password "x" secSalt) ≠ secStored ∧
    (verifyIter cleanSecuritySettings "x" [10, 11, 12, 13, 14]).locked = true :=
  ⟨by decide,
   (C8_lockout_state_machine.1 cleanSecuritySettings "x" secSalt secStored 10 11 12 13 14
      rfl rfl rfl rfl rfl rfl (by decide)).2.1⟩

theorem b64Table_length : b64Table.length = 64 := by decide

set_option maxRecDepth 10000 in
theorem b64Char_ne_pad (n : Nat) : b64Char n ≠ '=' := by
  by_cases h : n < 64
  · exact (by decide : ∀ m, m < 64 → b64Char m ≠ '=') n h
  · unfold b64Char
    rw [List.getD_eq_default]
    · decide
    · rw [b64Table_length]; omega

set_option maxRecDepth 100000 in
theorem b64DecChar_b64Char (n : Nat) (h : n < 64) : b64DecChar (b64Char n) = n :=
  (by decide : ∀ m, m < 64 → b64DecChar (b64Char m) = m) n h

theorem b64decode_encode_aux (fuel : Nat) :
    ∀ l : List Nat, l.length ≤ fuel → (∀ x ∈ l, x < 256) → l.length % 3 = 2 →
    b64decodeChars (b64encodeBytes l ++ ['=', '=']) = some l := by
  induction fuel with
  | zero =>
    intro l hl _ hm
    have hnil : l = [] := List.length_eq_zero.mp (Nat.le_zero.mp hl)
    subst hnil
    simp at hm
  | succ fuel ih =>
    intro l hl hb hm
    cases l with
    | nil => simp at hm
    | cons a l1 =>
      cases l1 with
      | nil => simp at hm
      | cons b l2 =>
        cases l2 with
        | nil =>
          have ha : a < 256 := hb a (by simp)
          have hbb : b < 256 := hb b (by simp)
          unfold b64encodeBytes
          simp only [List.cons_append, List.nil_append]
          unfold b64decodeChars
          rw [if_neg (b64Char_ne_pad _)]
          rw [if_pos rfl]
          rw [b64DecChar_b64Char _ (by omega), b64DecChar_b64Char _ (by omega),
              b64DecChar_b64Char _ (by omega)]
          simp only [Option.some.injEq, List.cons.injEq, and_true, eq_self_iff_true]
          omega
        | cons c rest =>
          have ha : a < 256 := hb a (by simp)
          have hbb : b < 256 := hb b (by simp)
          have hc : c < 256 := hb c (by simp)
          have hbrest : ∀ x ∈ rest, x < 256 := fun x hx => hb x (by simp [hx])
          have hlrest : rest.length ≤ fuel := by
            simp only [List.length_cons] at hl
            omega
          have hmrest : rest.length % 3 = 2 := by
            simp only [List.length_cons] at hm
            omega
          have ihr := ih rest hlrest hbrest hmrest
          unfold b64encodeBytes
          simp only [List.cons_append]
          unfold b64decodeChars
          rw [if_neg (b64Char_ne_pad _), if_neg (b64Char_ne_pad _)]
          rw [ihr]
          rw [b64DecChar_b64Char _ (by omega), b64DecChar_b64Char _ (by omega),
              b64DecChar_b64Char _ (by omega), b64DecChar_b64Char _ (by omega)]
          simp only [Option.map_some', Option.some.injEq, List.cons.injEq, and_true,
            eq_self_iff_true]
          omega

theorem b64decode_encode (l : List Nat) (hb : ∀ x ∈ l, x < 256) (hm : l.length % 3 = 2) :
    b64decodeChars (b64encodeBytes l ++ ['=', '=']) = some l :=
  b64decode_encode_aux l.length l (Nat.le_refl _) hb hm

theorem b64encode_length_aux (fuel : Nat) :
    ∀ l : List Nat, l.length ≤ fuel →
    (b64encodeBytes l).length = 4 * ((l.length + 2) / 3) := by
  induction fuel with
  | zero =>
    intro l hl
    have hnil : l = [] := List.length_eq_zero.mp (Nat.le_zero.mp hl)
    subst hnil
    simp [b64encodeBytes]
  | succ fuel ih =>
    intro l hl
    cases l with
    | nil => simp [b64encodeBytes]
    | cons a l1 =>
      cases l1 with
      | nil => simp [b64encodeBytes]
      | cons b l2 =>
        cases l2 with
        | nil => simp [b64encodeBytes]
        | cons c rest =>
          have hlrest : rest.length ≤ fuel := by
            simp only [List.length_cons] at hl
            omega
          have ihr := ih rest hlrest
          unfold b64encodeBytes
          simp only [List.length_cons, ihr]
          omega

theorem b64encode_length (l : List Nat) :
    (b64encodeBytes l).length = 4 * ((l.length + 2) / 3) :=
  b64encode_length_aux l.length l (Nat.le_refl _)

theorem importSeed_derivePrivateKey (seed : List Nat) (hlen : seed.length = 32)
    (hb : ∀ x ∈ seed, x < 256) :
    importSeed (derivePrivateKey seed) = seed := by
  have h44 : (b64encodeBytes seed).length = 44 := by
    rw [b64encode_length, hlen]
  have htake : (b64encodeBytes seed).take 52 = b64encodeBytes seed :=
    List.take_of_length_le (by omega)
  have htl : ("APrivateKey1" ++ String.mk (b64encodeBytes seed)).toList =
      "APrivateKey1".toList ++ b64encodeBytes seed := rfl
  have hlit : "APrivateKey1".toList =
      ['A', 'P', 'r', 'i', 'v', 'a', 't', 'e', 'K', 'e', 'y', '1'] := rfl
  unfold importSeed derivePrivateKey
  rw [htake, htl, hlit]
  simp only [List.cons_append, List.nil_append, List.drop_succ_cons, List.drop_zero]
  rw [b64decode_encode seed hb (by rw [hlen])]

theorem strStartsWith_derivePrivateKey (seed : List Nat) :
    strStartsWith (derivePrivateKey seed) "APrivateKey1" = true := by
  unfold strStartsWith derivePrivateKey
  apply decide_eq_true
  have htl : ("APrivateKey1" ++ String.mk ((b64encodeBytes seed).take 52)).toList =
      "APrivateKey1".toList ++ (b64encodeBytes seed).take 52 := rfl
  rw [htl]
  exact List.take_left _ _

/-- C5: importing from a private key is deterministic — any two import
calls, against any wallet states, with any names and at any times,
produce the same view key and address — and those equal the view key
and address generate_account derived from the seed underlying that
private key. -/
theorem C5_import_deterministic_and_matches_generate
    (seed : List Nat) (w wa wb : AleoWalletCore)
    (nm nma nmb : Option String) (t ta tb : Nat)
    (hlen : seed.length = 32) (hb : ∀ x ∈ seed, x < 256) :
    importedKeys wa ((w.generate_account seed nm t).1.private_key) nma ta =
      some ((w.generate_account seed nm t).1.view_key,
            (w.generate_account seed nm t).1.address) ∧
    importedKeys wb ((w.generate_account seed nm t).1.private_key) nmb tb =
      some ((w.generate_account seed nm t).1.view_key,
            (w.generate_account seed nm t).1.address) := by
  have hpk : (w.generate_account seed nm t).1.private_key = derivePrivateKey seed := rfl
  have hvk : (w.generate_account seed nm t).1.view_key = deriveViewKey seed := rfl
  have haddr : (w.generate_account seed nm t).1.address = deriveAddress seed := rfl
  have hone : ∀ (w2 : AleoWalletCore) (nm2 : Option String) (t2 : Nat),
      importedKeys w2 (derivePrivateKey seed) nm2 t2 =
        some (deriveViewKey seed, deriveAddress seed) := by
    intro w2 nm2 t2
    unfold importedKeys AleoWalletCore.import_account_from_private_key
    rw [strStartsWith_derivePrivateKey]
    simp only [Bool.true_eq_false, if_false]
    rw [importSeed_derivePrivateKey seed hlen hb]
    simp
  rw [hpk, hvk, haddr]
  exact ⟨hone wa nma ta, hone wb nmb tb⟩

set_option maxRecDepth 1000000 in
/-- Witness for C5 at the concrete 32-byte seed 0,1,...,31. -/
theorem C5_witness :
    (List.range 32).length = 32 ∧ (∀ x ∈ List.range 32, x < 256) ∧
    importedKeys {} ((AleoWalletCore.generate_account {} (List.range 32) none 0).1.private_key) none 1 =
      some ((AleoWalletCore.generate_account {} (List.range 32) none 0).1.view_key,
            (AleoWalletCore.generate_account {} (List.range 32) none 0).1.address) :=
  ⟨by decide, by decide,
   (C5_import_deterministic_and_matches_generate (List.range 32) {} {} {} none none none 0 1 2
      (by decide) (by decide)).1⟩
